import Mathlib

/-!
A shallow embedding of the WebAssembly IR and printer in
src/tools/optimizer/wasm.h (namespace wasm): the arena allocator, the Var
identifier type, basic types, literals, the operator catalogs, the
Expression class hierarchy with its indentation-tracking printer, and the
module-level declarations.

Modelling conventions:
* stream output (std::ostream) is modelled by returned Strings;
* a failed assert or a call to abort() is modelled by the value none of an
  Option-valued function, and so is calling the pure-virtual
  Expression::print on the two subclasses (Label, Host) that never
  override it;
* machine integers are Nat/Int (no arithmetic in the source overflows);
* the Expression hierarchy is a closed variant type, with the nullable
  child pointers of If and Break as an explicit null-or-node type.
-/

namespace Wasm

/-! ### Arena (wasm.h lines 16-45) -/

/-- The fixed chunk capacity CHUNK in Arena::alloc. -/
def CHUNK : Nat := 10000

/-- The aligned size (sizeof(T) + 7) & (-8): round up to a multiple of 8. -/
def alignSize (n : Nat) : Nat := (n + 7) / 8 * 8

/-- Arena state: the number of chunks (chunks.size()) and the cursor index
into the last chunk. Chunk contents are not modelled; an allocation is
identified by the region it reserves. -/
structure Arena where
  chunks : Nat
  index : Nat
deriving DecidableEq, Repr

/-- A freshly constructed arena: no chunks. The source leaves index
uninitialized; it is never read before being set, because the
chunks.size() == 0 test short-circuits the disjunction. -/
def Arena.empty : Arena := ⟨0, 0⟩

/-- A memory region handed out by Arena::alloc: the chunk it lies in, the
offset of the returned pointer in that chunk, and the aligned size
reserved for it. -/
structure Region where
  chunk : Nat
  off : Nat
  size : Nat
deriving DecidableEq, Repr

/-- Arena::alloc for a type of size sz, with currSize = alignSize sz
written out at each use. The result none models the failed
assert(currSize < CHUNK); otherwise a new chunk is begun when there is no
chunk yet or the current chunk cannot take currSize more bytes. -/
def Arena.alloc (a : Arena) (sz : Nat) : Option (Region × Arena) :=
  if CHUNK ≤ alignSize sz then none
  else if a.chunks = 0 ∨ CHUNK ≤ a.index + alignSize sz then
    some (⟨a.chunks, 0, alignSize sz⟩, ⟨a.chunks + 1, alignSize sz⟩)
  else
    some (⟨a.chunks - 1, a.index, alignSize sz⟩, ⟨a.chunks, a.index + alignSize sz⟩)

/-- A sequence of Arena::alloc calls, returning the regions in order. -/
def Arena.allocList (a : Arena) : List Nat → Option (List Region × Arena)
  | [] => some ([], a)
  | sz :: szs => do
      let (r, a1) ← a.alloc sz
      let (rs, a2) ← a1.allocList szs
      pure (r :: rs, a2)

/-- Two regions occupy no common byte: different chunks, or disjoint
offset ranges within the same chunk. -/
def Region.disjoint (r s : Region) : Prop :=
  r.chunk ≠ s.chunk ∨ r.off + r.size ≤ s.off ∨ s.off + s.size ≤ r.off

/-- Region r lies entirely before the arena's cursor: in a chunk before the
current one, or in the current chunk below index. Every region previously
returned by alloc satisfies this, which is what keeps later allocations
from overwriting it. -/
def Region.before (r : Region) (a : Arena) : Prop :=
  r.chunk + 1 < a.chunks ∨ (r.chunk + 1 = a.chunks ∧ r.off + r.size ≤ a.index)

/-! ### Indentation helpers (wasm.h lines 47-61) -/

/-- doIndent: two spaces per indentation level. incIndent (newline, then
one level deeper) and decIndent (one level shallower, indent, closing
parenthesis) are inlined at each use site below. -/
def doIndent (indent : Nat) : String := String.join (List.replicate indent "  ")

/-! ### Var (wasm.h lines 65-97) -/

/-- Var::MAX_NUM: below this value the shared cell holds a numeric ID,
above it a string; 0 is the null (unset) value. -/
def MAX_NUM : Nat := 1000000

/-- The state of the overlapping union inside Var: either the numeric ID
num, or the interned string (cashew::IString) str together with the
address addr the union cell then holds. -/
inductive Var where
  | vnum (num : Nat)
  | vstr (str : String) (addr : Nat)
deriving DecidableEq, Repr

/-- Reading the union through its num member (always well defined: for a
stored string it yields the string's address). -/
def Var.numView : Var → Nat
  | .vnum n => n
  | .vstr _ addr => addr

/-- Reading the union through its str member. When a number is stored this
read is undefined behaviour in the source and unreachable through the
constructors; it is given the junk value "". -/
def Var.strView : Var → String
  | .vnum _ => ""
  | .vstr s _ => s

/-- The default constructor Var(): num = 0. -/
def Var.init : Var := .vnum 0

/-- The constructor Var(unsigned num); none models the failed
assert(num > 0 && num < MAX_NUM). -/
def Var.ofNum (n : Nat) : Option Var :=
  if 0 < n ∧ n < MAX_NUM then some (.vnum n) else none

/-- The constructor Var(Name str); none models the failed
assert(num > MAX_NUM), where num reads the stored string's address
through the union. -/
def Var.ofName (str : String) (addr : Nat) : Option Var :=
  if MAX_NUM < addr then some (.vstr str addr) else none

/-- Var::is(). -/
def Var.is (v : Var) : Bool := v.numView ≠ 0

/-- Var::print: the decimal number when the cell reads below MAX_NUM,
otherwise the string read through the union. -/
def Var.print (v : Var) : String :=
  if v.numView < MAX_NUM then toString v.numView else v.strView

/-! ### Types and literals (wasm.h lines 101-155) -/

/-- The enum BasicType. The value none is spelled none_ to keep it apart
from Option.none. -/
inductive BasicType where
  | none_
  | i32
  | i64
  | f32
  | f64
deriving DecidableEq, Repr

/-- printBasicType. -/
def printBasicType : BasicType → String
  | .none_ => "none"
  | .i32 => "i32"
  | .i64 => "i64"
  | .f32 => "f32"
  | .f64 => "f64"

/-- getBasicTypeSize; none models abort() on the type none. -/
def getBasicTypeSize : BasicType → Option Nat
  | .none_ => none
  | .i32 => some 4
  | .i64 => some 8
  | .f32 => some 4
  | .f64 => some 8

/-- The rendering of a floating-point payload by stream output; the exact
digits are immaterial to every claim, so Lean's toString stands in for
the ostream formatting. -/
def printFloat (f : Float) : String := toString f

/-- The struct Literal: a BasicType tag over a union of four payloads. The
union is modelled by four fields of which only the one selected by type
is meaningful. -/
structure Literal where
  type : BasicType
  i32 : Int
  i64 : Int
  f32 : Float
  f64 : Float

/-- The default constructor Literal(): type is none, the payload is left
uninitialized (zeros here; never read, since print aborts first). -/
def Literal.init : Literal := ⟨.none_, 0, 0, 0, 0⟩

/-- The constructor Literal(int32_t). -/
def Literal.ofI32 (v : Int) : Literal := ⟨.i32, v, 0, 0, 0⟩

/-- The constructor Literal(int64_t). -/
def Literal.ofI64 (v : Int) : Literal := ⟨.i64, 0, v, 0, 0⟩

/-- The constructor Literal(float). -/
def Literal.ofF32 (v : Float) : Literal := ⟨.f32, 0, 0, v, 0⟩

/-- The constructor Literal(double). -/
def Literal.ofF64 (v : Float) : Literal := ⟨.f64, 0, 0, 0, v⟩

/-- Literal::print: dispatch on the tag, with abort() (none) on the type
none. -/
def Literal.print (l : Literal) : Option String :=
  match l.type with
  | .none_ => none
  | .i32 => some (toString l.i32)
  | .i64 => some (toString l.i64)
  | .f32 => some (printFloat l.f32)
  | .f64 => some (printFloat l.f64)

/-! ### Operator catalogs (wasm.h lines 159-183) -/

/-- The enum UnaryOp. -/
inductive UnaryOp where
  | Clz
  | Ctz
  | Popcnt
  | Neg
  | Abs
  | Ceil
  | Floor
  | Trunc
  | Nearest
  | Sqrt
deriving DecidableEq, Repr

/-- The enum BinaryOp. -/
inductive BinaryOp where
  | Add
  | Sub
  | Mul
  | DivS
  | DivU
  | RemS
  | RemU
  | And
  | Or
  | Xor
  | Shl
  | ShrU
  | ShrS
  | Div
  | CopySign
  | Min
  | Max
deriving DecidableEq, Repr

/-- The enum RelationalOp. -/
inductive RelationalOp where
  | Eq
  | Ne
  | LtS
  | LtU
  | LeS
  | LeU
  | GtS
  | GtU
  | GeS
  | GeU
  | Lt
  | Le
  | Gt
  | Ge
deriving DecidableEq, Repr

/-- The enum ConvertOp. -/
inductive ConvertOp where
  | ExtendSInt32
  | ExtendUInt32
  | WrapInt64
  | TruncSFloat32
  | TruncUFloat32
  | TruncSFloat64
  | TruncUFloat64
  | ReinterpretFloat
  | ConvertSInt32
  | ConvertUInt32
  | ConvertSInt64
  | ConvertUInt64
  | PromoteFloat32
  | DemoteFloat64
  | ReinterpretInt
deriving DecidableEq, Repr

/-- The enum HostOp. -/
inductive HostOp where
  | PageSize
  | MemorySize
  | GrowMemory
  | HasFeature
deriving DecidableEq, Repr

/-- The operator token written by Unary::print; none models the
default: abort() arm of its switch, reached for every operator except
Neg. -/
def unaryOpName : UnaryOp → Option String
  | .Neg => some "neg"
  | _ => none

/-- The operator token written by Binary::print; its switch covers the
whole enum, so it is total. -/
def binaryOpName : BinaryOp → String
  | .Add => "add"
  | .Sub => "sub"
  | .Mul => "mul"
  | .DivS => "divs"
  | .DivU => "divu"
  | .RemS => "rems"
  | .RemU => "remu"
  | .And => "and"
  | .Or => "or"
  | .Xor => "xor"
  | .Shl => "shl"
  | .ShrU => "shru"
  | .ShrS => "shrs"
  | .Div => "div"
  | .CopySign => "copysign"
  | .Min => "min"
  | .Max => "max"

/-- The operator token written by Compare::print; its switch covers the
whole enum, so it is total. -/
def relationalOpName : RelationalOp → String
  | .Eq => "eq"
  | .Ne => "ne"
  | .LtS => "lts"
  | .LtU => "ltu"
  | .LeS => "les"
  | .LeU => "leu"
  | .GtS => "gts"
  | .GtU => "gtu"
  | .GeS => "ges"
  | .GeU => "geu"
  | .Lt => "lt"
  | .Le => "le"
  | .Gt => "gt"
  | .Ge => "ge"

/-- The operator token written by Convert::print; none models the
default: abort() arm, reached for every operator other than
ConvertUInt32, ConvertSInt32 and TruncSFloat64. -/
def convertOpName : ConvertOp → Option String
  | .ConvertUInt32 => some "uint32toDouble"
  | .ConvertSInt32 => some "sint32toDouble"
  | .TruncSFloat64 => some "float64tosint32"
  | _ => none

/-! ### The Expression hierarchy (wasm.h lines 187-537) -/

mutual

/-- The Expression class hierarchy as a closed variant type; constructor
fields follow the C++ member declarations in order. The required child
pointers are direct subterms; the nullable ones (If::ifFalse,
Break::condition, Break::value) are ExpressionPtr values. CallImport,
which adds nothing to Call, keeps its own constructor so the hierarchy
stays complete. -/
inductive Expression where
  | nop
  | block (var : Var) (list : ExpressionList)
  | ifExpr (condition : Expression) (ifTrue : Expression) (ifFalse : ExpressionPtr)
  | loop (out : Var) (inVar : Var) (body : Expression)
  | label (var : Var)
  | breakExpr (var : Var) (condition : ExpressionPtr) (value : ExpressionPtr)
  | switchExpr (var : Var) (value : Expression) (cases : CaseList) (defaultBody : Expression)
  | call (target : Var) (operands : ExpressionList)
  | callImport (target : Var) (operands : ExpressionList)
  | callIndirect (target : Expression) (operands : ExpressionList)
  | getLocal (id : Var)
  | setLocal (id : Var) (value : Expression)
  | load (bytes : Nat) (signed : Bool) (offset : Int) (align : Nat) (ptr : Expression)
  | store (bytes : Nat) (offset : Int) (align : Nat) (ptr : Expression) (value : Expression)
  | constExpr (value : Literal)
  | unary (op : UnaryOp) (value : Expression)
  | binary (op : BinaryOp) (left : Expression) (right : Expression)
  | compare (op : RelationalOp) (left : Expression) (right : Expression)
  | convert (op : ConvertOp) (value : Expression)
  | host (op : HostOp) (operands : ExpressionList)

/-- A nullable Expression* child pointer. -/
inductive ExpressionPtr where
  | null
  | ptr (e : Expression)

/-- ExpressionList (std::vector of Expression pointers). -/
inductive ExpressionList where
  | nil
  | cons (head : Expression) (tail : ExpressionList)

/-- Switch::Case. -/
inductive SwitchCase where
  | mk (value : Literal) (body : Expression) (fallthru : Bool)

/-- std::vector of Switch::Case. -/
inductive CaseList where
  | nil
  | cons (head : SwitchCase) (tail : CaseList)

end

/-- The line written for one child by printFullLine around a node body s:
the current indentation, the node, a line break. -/
def fullLine (indent : Nat) (s : String) : String := doIndent indent ++ s ++ "\n"

mutual

/-- Expression::print(o, indent), as the string each subclass writes.
Children are emitted as full lines at indent + 1 (the caller's incIndent
followed by printFullLine), and each compound form closes with decIndent:
the closing parenthesis indented at the level the form was opened at. The
value none models abort() inside a print (a none-typed literal, an
operator outside the printed subset) and the pure-virtual print of the
subclasses Label and Host, which never override it and therefore cannot
be printed. -/
def Expression.print : Expression → Nat → Option String
  | .nop, _ => some "nop"
  | .block var list, indent => do
      let body ← ExpressionList.printFull list (indent + 1)
      pure ("(block" ++ (if var.is then " " ++ var.print else "")
        ++ "\n" ++ body ++ doIndent indent ++ ")")
  | .ifExpr condition ifTrue ifFalse, indent => do
      let c ← Expression.print condition (indent + 1)
      let t ← Expression.print ifTrue (indent + 1)
      let f ← ExpressionPtr.printFull ifFalse (indent + 1)
      pure ("(if" ++ "\n" ++ fullLine (indent + 1) c ++ fullLine (indent + 1) t
        ++ f ++ doIndent indent ++ ")")
  | .loop out inVar body, indent => do
      let b ← Expression.print body (indent + 1)
      pure ("(loop"
        ++ (if out.is then
              " " ++ out.print ++ (if inVar.is then " " ++ inVar.print else "")
            else "")
        ++ "\n" ++ fullLine (indent + 1) b ++ doIndent indent ++ ")")
  | .label _, _ => none
  | .breakExpr var condition value, indent => do
      let c ← ExpressionPtr.printFull condition (indent + 1)
      let v ← ExpressionPtr.printFull value (indent + 1)
      pure ("(break " ++ var.print ++ "\n" ++ c ++ v ++ doIndent indent ++ ")")
  | .switchExpr var value _ _, indent => do
      let v ← Expression.print value (indent + 1)
      pure ("(switch " ++ var.print ++ "\n" ++ fullLine (indent + 1) v
        ++ "TODO: cases/default\n" ++ doIndent indent ++ ")")
  | .call target operands, indent => do
      let ops ← ExpressionList.printFull operands (indent + 1)
      pure ("(call " ++ target.print ++ "\n" ++ ops ++ doIndent indent ++ ")")
  | .callImport target operands, indent => do
      let ops ← ExpressionList.printFull operands (indent + 1)
      pure ("(call " ++ target.print ++ "\n" ++ ops ++ doIndent indent ++ ")")
  | .callIndirect target operands, indent => do
      let t ← Expression.print target (indent + 1)
      let ops ← ExpressionList.printFull operands (indent + 1)
      pure ("(callindirect " ++ "\n" ++ fullLine (indent + 1) t
        ++ ops ++ doIndent indent ++ ")")
  | .getLocal id, _ => some ("(setlocal " ++ id.print ++ ")")
  | .setLocal id value, indent => do
      let v ← Expression.print value (indent + 1)
      pure ("(setlocal " ++ id.print ++ "\n" ++ fullLine (indent + 1) v
        ++ doIndent indent ++ ")")
  | .load bytes signed offset align ptr, indent => do
      let p ← Expression.print ptr (indent + 1)
      pure ("(load " ++ toString bytes ++ " " ++ (if signed then "1" else "0")
        ++ " " ++ toString offset ++ " " ++ toString align
        ++ "\n" ++ fullLine (indent + 1) p ++ doIndent indent ++ ")")
  | .store bytes offset align ptr value, indent => do
      let p ← Expression.print ptr (indent + 1)
      let v ← Expression.print value (indent + 1)
      pure ("(load " ++ toString bytes ++ " " ++ " " ++ toString offset
        ++ " " ++ toString align ++ "\n" ++ fullLine (indent + 1) p
        ++ fullLine (indent + 1) v ++ doIndent indent ++ ")")
  | .constExpr value, _ => do
      let s ← value.print
      pure ("(literal " ++ s ++ ")")
  | .unary op value, indent => do
      let opName ← unaryOpName op
      let v ← Expression.print value (indent + 1)
      pure ("(unary " ++ opName ++ "\n" ++ fullLine (indent + 1) v
        ++ doIndent indent ++ ")")
  | .binary op left right, indent => do
      let l ← Expression.print left (indent + 1)
      let r ← Expression.print right (indent + 1)
      pure ("(binary " ++ binaryOpName op ++ "\n" ++ fullLine (indent + 1) l
        ++ fullLine (indent + 1) r ++ doIndent indent ++ ")")
  | .compare op left right, indent => do
      let l ← Expression.print left (indent + 1)
      let r ← Expression.print right (indent + 1)
      pure ("(compare " ++ relationalOpName op ++ "\n" ++ fullLine (indent + 1) l
        ++ fullLine (indent + 1) r ++ doIndent indent ++ ")")
  | .convert op value, indent => do
      let opName ← convertOpName op
      let v ← Expression.print value (indent + 1)
      pure ("(convert " ++ opName ++ "\n" ++ fullLine (indent + 1) v
        ++ doIndent indent ++ ")")
  | .host _ _, _ => none

/-- A nullable child: its full line when non-null, nothing when null. -/
def ExpressionPtr.printFull : ExpressionPtr → Nat → Option String
  | .null, _ => some ""
  | .ptr e, indent => do
      let s ← Expression.print e indent
      pure (fullLine indent s)

/-- A child list: one full line per element in order. -/
def ExpressionList.printFull : ExpressionList → Nat → Option String
  | .nil, _ => some ""
  | .cons e es, indent => do
      let s ← Expression.print e indent
      let rest ← ExpressionList.printFull es indent
      pure (fullLine indent s ++ rest)

end

/-- printFullLine(o, indent, expression). -/
def printFullLine (e : Expression) (indent : Nat) : Option String := do
  let s ← Expression.print e indent
  pure (fullLine indent s)

/-- Const::set: replace the literal held by a Const node in place (the
identity on every other node kind, which has no such member). -/
def Expression.constSet : Expression → Literal → Expression
  | .constExpr _, l => .constExpr l
  | e, _ => e

/-- Arena::alloc specialised to a node type of size sz whose default
constructor is run by the placement new (ret) T(): the allocation also
yields the freshly default-constructed Const node, holding Literal(). -/
def Arena.allocConst (a : Arena) (sz : Nat) : Option ((Region × Expression) × Arena) :=
  (a.alloc sz).map (fun p => ((p.1, Expression.constExpr Literal.init), p.2))

/-! ### Declarations and Module (wasm.h lines 541-700) -/

/-- A cashew::IString name. IString interns its strings, so its pointer
equality and ordering coincide with string equality and ordering; the
name is therefore modelled by the string itself. -/
abbrev Name := String

/-- The struct NameType. -/
structure NameType where
  name : Name
  type : BasicType
deriving DecidableEq, Repr

/-- printParamsAndResult (its indent argument is unused in the source). -/
def printParamsAndResult (result : BasicType) (params : List NameType) : String :=
  String.join (params.map (fun p =>
      "(param " ++ p.name ++ " " ++ printBasicType p.type ++ ") "))
    ++ "(result " ++ printBasicType result ++ ")"

/-- The class FunctionType. -/
structure FunctionType where
  name : Name
  result : BasicType
  params : List BasicType
deriving DecidableEq, Repr

/-- FunctionType::print. -/
def FunctionType.print (t : FunctionType) (indent : Nat) : String :=
  "(type " ++ t.name ++ "\n" ++ doIndent (indent + 1)
    ++ String.join (t.params.map (fun p => "(param " ++ printBasicType p ++ ") "))
    ++ "(result " ++ printBasicType t.result ++ ")\n"
    ++ doIndent indent ++ ")"

/-- The element-wise loop over the parameter lists at the end of
FunctionType::operator==; the source runs it only after checking that the
sizes agree. -/
def paramsLoop : List BasicType → List BasicType → Bool
  | p :: ps, q :: qs => if p ≠ q then false else paramsLoop ps qs
  | _, _ => true

/-- FunctionType::operator==: name, then result, then size, then the
element-wise parameter loop. -/
def FunctionType.eq (a b : FunctionType) : Bool :=
  if a.name ≠ b.name then false
  else if a.result ≠ b.result then false
  else if a.params.length ≠ b.params.length then false
  else paramsLoop a.params b.params

/-- FunctionType::operator!=. -/
def FunctionType.ne (a b : FunctionType) : Bool := !(FunctionType.eq a b)

/-- The class Function. -/
structure Function where
  name : Name
  result : BasicType
  params : List NameType
  locals : List NameType
  body : Expression

/-- Function::print: the signature line, one line per local, the body as a
full line, the closing parenthesis. -/
def Function.print (f : Function) (indent : Nat) : Option String := do
  let b ← printFullLine f.body (indent + 1)
  pure ("(func " ++ f.name ++ " " ++ printParamsAndResult f.result f.params ++ "\n"
    ++ String.join (f.locals.map (fun l =>
        doIndent (indent + 1) ++ "(local " ++ l.name ++ " "
          ++ printBasicType l.type ++ ")\n"))
    ++ b ++ doIndent indent ++ ")")

/-- The class Import (name = module.base). -/
structure Import where
  name : Name
  module : Name
  base : Name
  type : FunctionType

/-- Import::print. -/
def Import.print (im : Import) (indent : Nat) : String :=
  "(import " ++ im.name ++ " \"" ++ im.module ++ "\" \"" ++ im.base ++ "\" "
    ++ im.type.print indent ++ ")"

/-- The class Export. -/
structure Export where
  name : Name
  value : Var
deriving DecidableEq, Repr

/-- Export::print (its indent argument is unused in the source). -/
def Export.print (e : Export) : String :=
  "(export \"" ++ e.name ++ "\" " ++ e.value.print ++ ")"

/-- The class Table. -/
structure Table where
  vars : List Var
deriving DecidableEq, Repr

/-- Table::print (its indent argument is unused in the source). -/
def Table.print (t : Table) : String :=
  "(table " ++ String.join (t.vars.map (fun v => v.print ++ " ")) ++ ")"

/-- Modelled from the spec: the imports live in a std::map keyed by
cashew::IString, whose comparison operator is not under src/, and the
spec states that iterating the collection visits imports in name-sorted
order. The map contents are modelled as the insertion-ordered association
list held by Module, and map iteration as a sort by key. -/
def sortImports (l : List (Name × Import)) : List (Name × Import) :=
  l.insertionSort (fun a b => a.1 ≤ b.1)

/-- The class Module (the wasm-contents part; the internal resolution map
and counter play no role in printing). -/
structure Module where
  functionTypes : List FunctionType
  imports : List (Name × Import)
  exports : List Export
  table : Table
  functions : List Function

/-- The loop over functions at the end of Module::print; each body print
can abort, so the loop is Option-valued. -/
def printFunctions : List Function → Nat → Option String
  | [], _ => some ""
  | f :: rest, indent => do
      let s ← f.print indent
      let r ← printFunctions rest indent
      pure (doIndent indent ++ s ++ "\n" ++ r)

/-- Module::print: the module header, then one loop per declaration kind in
source order, each entry written as an indented line, then the closing
parenthesis and a final line break. The folds mirror the sequential
stream writes of the source loops. -/
def Module.print (m : Module) : Option String := do
  let fns ← printFunctions m.functions 1
  pure ("(module\n"
    ++ m.functionTypes.foldl (fun acc t => acc ++ (doIndent 1 ++ t.print 1 ++ "\n")) ""
    ++ (sortImports m.imports).foldl
         (fun acc p => acc ++ (doIndent 1 ++ p.2.print 1 ++ "\n")) ""
    ++ m.exports.foldl (fun acc e => acc ++ (doIndent 1 ++ e.print ++ "\n")) ""
    ++ doIndent 1 ++ m.table.print ++ "\n"
    ++ fns
    ++ ")\n")

/-! ### The printer protocol checker used by the output-shape claims -/

/-- Split a character list into its lines at each line-break character. -/
def splitLines : List Char → List (List Char)
  | [] => [[]]
  | c :: cs =>
      if c = '\n' then [] :: splitLines cs
      else
        match splitLines cs with
        | [] => [[c]]
        | l :: ls => (c :: l) :: ls

/-- The number of leading spaces of a line. -/
def leadingSpaces (l : List Char) : Nat := (l.takeWhile (fun c => c = ' ')).length

/-- The number of opening parentheses in a line. -/
def parenOpens (l : List Char) : Nat := (l.filter (fun c => c = '(')).length

/-- The number of closing parentheses in a line. -/
def parenCloses (l : List Char) : Nat := (l.filter (fun c => c = ')')).length

/-- Whether the first character after the indentation is a closing
parenthesis. -/
def startsWithClose (l : List Char) : Bool :=
  match l.dropWhile (fun c => c = ' ') with
  | [] => false
  | c :: _ => c = ')'

/-- Walk the lines of a printed form keeping the count bal of opening
parentheses not yet closed. Every line must be indented two spaces per
open parenthesis — one level less when the line itself starts with a
closing parenthesis, which closes the form opened at that level — and
after the last line every parenthesis must be closed and none may have
been closed early. -/
def checkLines : List (List Char) → Int → Bool
  | [], bal => bal == 0
  | l :: rest, bal =>
      let expected : Int := if startsWithClose l then bal - 1 else bal
      ((leadingSpaces l : Int) == 2 * expected)
        && (0 ≤ bal + (parenOpens l : Int) - (parenCloses l : Int))
        && checkLines rest (bal + (parenOpens l : Int) - (parenCloses l : Int))

/-- Balanced delimiters with depth-correct indentation, for the output of
a print at indentation level 0. -/
def balancedIndented (s : String) : Bool := checkLines (splitLines s.data) 0

/-! ### C3: Identifier (Var) round-trip -/

/-- C3: Identifier (Var) round-trips. For every in-range positive integer
n, printing the Identifier constructed from n yields the decimal
rendering of n; for every name, printing the Identifier constructed from
that name yields the name text verbatim; and a default-constructed
(unset) Identifier is never reported as set by is(). -/
theorem c3_identifier_roundtrip (n : Nat) (s : String) (addr : Nat) :
    (∀ v, Var.ofNum n = some v → v.print = toString n)
  ∧ (∀ v, Var.ofName s addr = some v → v.print = s)
  ∧ Var.init.is = false := by
  refine ⟨fun v hv => ?_, fun v hv => ?_, rfl⟩
  · unfold Var.ofNum at hv
    split at hv
    case isTrue h =>
      cases hv
      simp [Var.print, Var.numView, h.2]
    case isFalse h => cases hv
  · unfold Var.ofName at hv
    split at hv
    case isTrue h =>
      cases hv
      simp [Var.print, Var.numView, Var.strView, Nat.lt_asymm h]
    case isFalse h => cases hv

/-- Witness for c3_identifier_roundtrip at n = 7 and the name "tmp" whose
interned address is 1000001. -/
theorem c3_identifier_roundtrip_witness :
    (Var.vnum 7).print = "7" ∧ (Var.vstr "tmp" 1000001).print = "tmp"
      ∧ Var.init.is = false := by
  have h := c3_identifier_roundtrip 7 "tmp" 1000001
  exact ⟨h.1 (Var.vnum 7) (by decide), h.2.1 (Var.vstr "tmp" 1000001) (by decide),
    h.2.2⟩

/-! ### C8: Identifier construction-time contract -/

/-- C8: constructing a numeric Identifier from an integer outside the open
range (0, MAX_NUM) fails at construction (the assert), constructing an
Identifier from a name whose underlying value lies below the threshold
likewise fails, and every Identifier that a constructor does return is
unambiguous: numeric ones read strictly between 0 and MAX_NUM, named
ones strictly above MAX_NUM. -/
theorem c8_identifier_construction_rejects (n : Nat) (s : String) (addr : Nat) :
    (¬(0 < n ∧ n < MAX_NUM) → Var.ofNum n = none)
  ∧ (addr < MAX_NUM → Var.ofName s addr = none)
  ∧ (∀ v, Var.ofNum n = some v → 0 < v.numView ∧ v.numView < MAX_NUM)
  ∧ (∀ v, Var.ofName s addr = some v → MAX_NUM < v.numView) := by
  refine ⟨fun h => ?_, fun h => ?_, fun v hv => ?_, fun v hv => ?_⟩
  · unfold Var.ofNum
    rw [if_neg h]
  · unfold Var.ofName
    rw [if_neg (by omega)]
  · unfold Var.ofNum at hv
    split at hv
    case isTrue hc =>
      cases hv
      simpa [Var.numView] using hc
    case isFalse hc => cases hv
  · unfold Var.ofName at hv
    split at hv
    case isTrue hc =>
      cases hv
      simpa [Var.numView] using hc
    case isFalse hc => cases hv

/-- Witness for c8_identifier_construction_rejects: the out-of-range
number 1000000 and a name at address 5 are both rejected. -/
theorem c8_identifier_construction_rejects_witness :
    Var.ofNum 1000000 = none ∧ Var.ofName "low" 5 = none := by
  have h := c8_identifier_construction_rejects 1000000 "low" 5
  exact ⟨h.1 (by decide), h.2.1 (by decide)⟩

/-! ### C4: FunctionType equality -/

/-- Auxiliary: with parameter lists of equal length — which is what the
source checks before entering the loop — the element-wise loop decides
list equality. -/
theorem paramsLoop_eq_true_iff {ps qs : List BasicType} (h : ps.length = qs.length) :
    paramsLoop ps qs = true ↔ ps = qs := by
  induction ps generalizing qs with
  | nil =>
    cases qs with
    | nil => simp [paramsLoop]
    | cons q qs => simp at h
  | cons p ps ih =>
    cases qs with
    | nil => simp at h
    | cons q qs =>
      simp only [List.length_cons, Nat.add_right_cancel_iff] at h
      by_cases hpq : p = q
      · subst hpq
        simp [paramsLoop, ih h]
      · simp [paramsLoop, hpq]

/-- Auxiliary: FunctionType::operator== holds exactly when name, result
and the full ordered parameter list agree. -/
theorem functionTypeEq_iff (a b : FunctionType) :
    FunctionType.eq a b = true ↔
      a.name = b.name ∧ a.result = b.result ∧ a.params = b.params := by
  unfold FunctionType.eq
  split_ifs with h1 h2 h3
  · simp only [Bool.false_eq_true, false_iff]
    exact fun h => h1 h.1
  · simp only [Bool.false_eq_true, false_iff]
    exact fun h => h2 h.2.1
  · simp only [Bool.false_eq_true, false_iff]
    exact fun h => h3 (congrArg List.length h.2.2)
  · rw [paramsLoop_eq_true_iff (not_ne_iff.mp h3)]
    simp [not_ne_iff.mp h1, not_ne_iff.mp h2]

/-- C4: FunctionType equality (operator==) is reflexive and symmetric, and
two FunctionTypes are equal exactly when they agree on name, result type
and the full ordered parameter list; in particular two signatures
differing only in declared name, or only in parameter order (hence with
different parameter lists), are unequal. -/
theorem c4_functiontype_equality (a b : FunctionType) :
    FunctionType.eq a a = true
  ∧ FunctionType.eq a b = FunctionType.eq b a
  ∧ (FunctionType.eq a b = true ↔
       a.name = b.name ∧ a.result = b.result ∧ a.params = b.params)
  ∧ (a.name ≠ b.name → FunctionType.eq a b = false)
  ∧ (a.params ≠ b.params → FunctionType.eq a b = false) := by
  refine ⟨(functionTypeEq_iff a a).mpr ⟨rfl, rfl, rfl⟩, ?_, functionTypeEq_iff a b,
    fun h => ?_, fun h => ?_⟩
  · by_cases hc : a.name = b.name ∧ a.result = b.result ∧ a.params = b.params
    · rw [(functionTypeEq_iff a b).mpr hc,
        (functionTypeEq_iff b a).mpr ⟨hc.1.symm, hc.2.1.symm, hc.2.2.symm⟩]
    · have hc2 : ¬(b.name = a.name ∧ b.result = a.result ∧ b.params = a.params) :=
        fun hx => hc ⟨hx.1.symm, hx.2.1.symm, hx.2.2.symm⟩
      rw [Bool.eq_false_iff.mpr (fun he => hc ((functionTypeEq_iff a b).mp he)),
        Bool.eq_false_iff.mpr (fun he => hc2 ((functionTypeEq_iff b a).mp he))]
  · exact Bool.eq_false_iff.mpr (fun he => h ((functionTypeEq_iff a b).mp he).1)
  · exact Bool.eq_false_iff.mpr (fun he => h ((functionTypeEq_iff a b).mp he).2.2)

/-- Witness for c4_functiontype_equality: same shape but different name is
unequal; same name but swapped parameter order is unequal. -/
theorem c4_functiontype_equality_witness :
    FunctionType.eq ⟨"f", BasicType.i32, [BasicType.i32, BasicType.f64]⟩
        ⟨"g", BasicType.i32, [BasicType.i32, BasicType.f64]⟩ = false
  ∧ FunctionType.eq ⟨"f", BasicType.i32, [BasicType.i32, BasicType.f64]⟩
        ⟨"f", BasicType.i32, [BasicType.f64, BasicType.i32]⟩ = false := by
  constructor
  · exact (c4_functiontype_equality _ _).2.2.2.1 (by decide)
  · exact (c4_functiontype_equality _ _).2.2.2.2 (by decide)

/-! ### C6: Literal printing -/

/-- C6: printing a Literal whose type tag is none aborts (none), and for
every Literal whose type tag is i32, i64, f32 or f64 printing succeeds
and emits the payload selected by that tag. -/
theorem c6_literal_print_dispatch (l : Literal) :
    (Literal.print l = none ↔ l.type = BasicType.none_)
  ∧ (l.type = BasicType.i32 → Literal.print l = some (toString l.i32))
  ∧ (l.type = BasicType.i64 → Literal.print l = some (toString l.i64))
  ∧ (l.type = BasicType.f32 → Literal.print l = some (printFloat l.f32))
  ∧ (l.type = BasicType.f64 → Literal.print l = some (printFloat l.f64)) := by
  obtain ⟨t, a, b, c, d⟩ := l
  cases t <;> simp [Literal.print]

/-- Witness for c6_literal_print_dispatch: the i32 literal 7 prints as its
decimal payload, the default (none-typed) literal aborts. -/
theorem c6_literal_print_dispatch_witness :
    Literal.print (Literal.ofI32 7) = some "7"
  ∧ Literal.print Literal.init = none := by
  constructor
  · exact (c6_literal_print_dispatch (Literal.ofI32 7)).2.1 rfl
  · exact (c6_literal_print_dispatch Literal.init).1.mpr rfl

/-! ### C9: the Unary and Convert printers are partial -/

/-- C9: printing a Unary node aborts for every operator other than Neg and
succeeds for Neg exactly when its child prints; printing a Convert node
aborts for every operator other than ConvertSInt32, ConvertUInt32 and
TruncSFloat64 and succeeds on those exactly when its child prints. -/
theorem c9_unary_convert_partial (uop : UnaryOp) (cop : ConvertOp)
    (child : Expression) (indent : Nat) :
    (uop ≠ UnaryOp.Neg → Expression.print (.unary uop child) indent = none)
  ∧ ((Expression.print (.unary UnaryOp.Neg child) indent).isSome
       = (Expression.print child (indent + 1)).isSome)
  ∧ (cop ≠ ConvertOp.ConvertSInt32 → cop ≠ ConvertOp.ConvertUInt32 →
       cop ≠ ConvertOp.TruncSFloat64 →
       Expression.print (.convert cop child) indent = none)
  ∧ ((cop = ConvertOp.ConvertSInt32 ∨ cop = ConvertOp.ConvertUInt32 ∨
        cop = ConvertOp.TruncSFloat64) →
       (Expression.print (.convert cop child) indent).isSome
         = (Expression.print child (indent + 1)).isSome) := by
  refine ⟨fun h => ?_, ?_, fun h1 h2 h3 => ?_, fun h => ?_⟩
  · have hu : unaryOpName uop = none := by
      cases uop <;> simp_all [unaryOpName]
    simp [Expression.print, hu]
  · cases hc : Expression.print child (indent + 1) <;>
      simp [Expression.print, unaryOpName, hc]
  · have hv : convertOpName cop = none := by
      cases cop <;> simp_all [convertOpName]
    simp [Expression.print, hv]
  · have hv : (convertOpName cop).isSome = true := by
      rcases h with h | h | h <;> subst h <;> simp [convertOpName]
    obtain ⟨s, hs⟩ := Option.isSome_iff_exists.mp hv
    cases hc : Expression.print child (indent + 1) <;>
      simp [Expression.print, hs, hc]

/-- Witness for c9_unary_convert_partial: Clz and WrapInt64 nodes abort
even over a printable child. -/
theorem c9_unary_convert_partial_witness :
    Expression.print (.unary UnaryOp.Clz .nop) 0 = none
  ∧ Expression.print (.convert ConvertOp.WrapInt64 .nop) 0 = none := by
  have h := c9_unary_convert_partial UnaryOp.Clz ConvertOp.WrapInt64 .nop 0
  exact ⟨h.1 (by decide), h.2.2.1 (by decide) (by decide) (by decide)⟩

/-! ### C10: a freshly allocated Const is unprintable until set -/

/-- C10: a default-constructed Literal has type tag none; every Const node
as produced by Arena allocation (placement new running the default
constructor) holds that literal and printing it aborts; Const::set with a
typed literal makes the node printable. -/
theorem c10_default_const_unprintable (a : Arena) (sz indent : Nat) (l : Literal) :
    Literal.init.type = BasicType.none_
  ∧ (∀ r e a1, Arena.allocConst a sz = some ((r, e), a1) →
       e = Expression.constExpr Literal.init ∧ Expression.print e indent = none)
  ∧ (l.type ≠ BasicType.none_ →
       (Expression.print (Expression.constSet (Expression.constExpr Literal.init) l)
          indent).isSome = true) := by
  refine ⟨rfl, fun r e a1 h => ?_, fun h => ?_⟩
  · unfold Arena.allocConst at h
    cases halloc : Arena.alloc a sz with
    | none => rw [halloc] at h; cases h
    | some p =>
      rw [halloc] at h
      simp only [Option.map_some', Option.some.injEq, Prod.mk.injEq] at h
      refine ⟨h.1.2.symm, ?_⟩
      rw [← h.1.2]
      rfl
  · show (Expression.print (Expression.constExpr l) indent).isSome = true
    obtain ⟨t, a1, b1, c1, d1⟩ := l
    cases t <;> simp_all [Expression.print, Literal.print]

/-- Witness for c10_default_const_unprintable: from the empty arena, with
sz = 24 standing for sizeof(Const), the allocated node is the default
Const and does not print; after set with the i32 literal 5 it prints. -/
theorem c10_default_const_unprintable_witness :
    Expression.print (Expression.constExpr Literal.init) 0 = none
  ∧ (Expression.print (Expression.constSet (Expression.constExpr Literal.init)
       (Literal.ofI32 5)) 0).isSome = true := by
  have h := c10_default_const_unprintable Arena.empty 24 0 (Literal.ofI32 5)
  exact ⟨(h.2.1 ⟨0, 0, 24⟩ (Expression.constExpr Literal.init) ⟨1, 24⟩ rfl).2,
    h.2.2 (by decide)⟩

/-! ### C5: the Store printer's instruction tag -/

/-- C5: contrary to the claim that a Store node opens with the tag store,
Store::print writes the same tag "(load " that Load::print writes — with
a doubled space where Load prints its signedness flag — followed by the
byte width, offset and alignment fields and the address and value
children. The two printed forms below exhibit this on minimal nodes. -/
theorem c5_store_prints_load_tag :
    Expression.print (.store 4 0 0 .nop .nop) 0
      = some "(load 4  0 0\n  nop\n  nop\n)"
  ∧ Expression.print (.load 4 false 0 0 .nop) 0
      = some "(load 4 0 0 0\n  nop\n)" := by
  exact ⟨by decide, by decide⟩

/-! ### C1: the printer protocol over all Expression variants -/

/-- C1: the claim that every Expression variant prints with balanced
delimiters and depth-correct indentation fails on three variants: Label
and Host never override the pure-virtual print and so cannot be printed
at all, and a minimal Switch prints its unindented placeholder line
"TODO: cases/default", breaking the indentation discipline — while a
well-covered variant such as Block does satisfy the protocol checker. -/
theorem c1_print_protocol_violations :
    Expression.print (.label (Var.vnum 1)) 0 = none
  ∧ Expression.print (.host HostOp.PageSize .nil) 0 = none
  ∧ Expression.print (.switchExpr (Var.vnum 1) .nop .nil .nop) 0
      = some "(switch 1\n  nop\nTODO: cases/default\n)"
  ∧ balancedIndented "(switch 1\n  nop\nTODO: cases/default\n)" = false
  ∧ Expression.print (.block Var.init (.cons .nop .nil)) 0
      = some "(block\n  nop\n)"
  ∧ balancedIndented "(block\n  nop\n)" = true := by
  exact ⟨rfl, rfl, by decide, by decide, by decide, by decide⟩

/-! ### C7: Arena allocation -/

/-- The bytes of chunk capacity already consumed by an arena, counting
every non-current chunk as full. -/
def Arena.fill (a : Arena) : Nat :=
  if a.chunks = 0 then 0 else (a.chunks - 1) * CHUNK + a.index

/-- Auxiliary: Arena::alloc fails exactly on an aligned size that is not
smaller than the chunk capacity. -/
theorem alloc_none_iff (a : Arena) (sz : Nat) :
    Arena.alloc a sz = none ↔ CHUNK ≤ alignSize sz := by
  unfold Arena.alloc
  split_ifs with h1 h2 <;> simp [h1]

/-- Auxiliary: a successful allocation returns a region lying before the
new cursor and inside its chunk's capacity, and never removes chunks. -/
theorem alloc_fresh {a : Arena} {sz : Nat} {r : Region} {a1 : Arena}
    (h : Arena.alloc a sz = some (r, a1)) :
    Region.before r a1 ∧ r.off + r.size ≤ CHUNK ∧ a.chunks ≤ a1.chunks := by
  unfold Arena.alloc at h
  split_ifs at h with h1 h2
  · cases h
    simp [Region.before]
    omega
  · cases h
    simp [Region.before]
    omega

/-- Auxiliary: a successful allocation leaves every region that was
already before the cursor before the new cursor, and disjoint from the
region just returned: earlier allocations are never overwritten. -/
theorem alloc_preserves {a : Arena} {sz : Nat} {r : Region} {a1 : Arena}
    (h : Arena.alloc a sz = some (r, a1)) {s : Region}
    (hs : Region.before s a) :
    Region.before s a1 ∧ s.disjoint r := by
  unfold Arena.alloc at h
  split_ifs at h with h1 h2
  · cases h
    simp only [Region.before, Region.disjoint] at hs ⊢
    omega
  · cases h
    simp only [Region.before, Region.disjoint] at hs ⊢
    omega

/-- Auxiliary: regions already placed stay before the cursor across a
whole allocation sequence and are disjoint from every region it
returns. -/
theorem allocList_preserves (szs : List Nat) :
    ∀ {a : Arena} {rs : List Region} {a1 : Arena},
      Arena.allocList a szs = some (rs, a1) →
      ∀ {s : Region}, Region.before s a →
        Region.before s a1 ∧ ∀ r ∈ rs, s.disjoint r := by
  induction szs with
  | nil =>
    intro a rs a1 h s hs
    unfold Arena.allocList at h
    cases h
    exact ⟨hs, by simp⟩
  | cons sz szs ih =>
    intro a rs a1 h s hs
    unfold Arena.allocList at h
    cases halloc : Arena.alloc a sz with
    | none => rw [halloc] at h; cases h
    | some p =>
      obtain ⟨r0, a2⟩ := p
      rw [halloc] at h
      simp only [Option.bind_eq_bind, Option.some_bind] at h
      cases hrest : Arena.allocList a2 szs with
      | none => rw [hrest] at h; cases h
      | some q =>
        obtain ⟨rs2, a3⟩ := q
        rw [hrest] at h
        simp only [Option.some_bind, Option.some.injEq, Prod.mk.injEq] at h
        obtain ⟨rfl, rfl⟩ := h
        obtain ⟨hs2, hdis⟩ := alloc_preserves halloc hs
        obtain ⟨hs3, hall⟩ := ih hrest hs2
        refine ⟨hs3, fun r hr => ?_⟩
        rcases List.mem_cons.mp hr with hr | hr
        · subst hr; exact hdis
        · exact hall r hr

/-- Auxiliary: every region returned by an allocation sequence lies before
the final cursor and inside its chunk's capacity. -/
theorem allocList_each (szs : List Nat) :
    ∀ {a : Arena} {rs : List Region} {a1 : Arena},
      Arena.allocList a szs = some (rs, a1) →
      ∀ r ∈ rs, Region.before r a1 ∧ r.off + r.size ≤ CHUNK := by
  induction szs with
  | nil =>
    intro a rs a1 h
    unfold Arena.allocList at h
    cases h
    simp
  | cons sz szs ih =>
    intro a rs a1 h
    unfold Arena.allocList at h
    cases halloc : Arena.alloc a sz with
    | none => rw [halloc] at h; cases h
    | some p =>
      obtain ⟨r0, a2⟩ := p
      rw [halloc] at h
      simp only [Option.bind_eq_bind, Option.some_bind] at h
      cases hrest : Arena.allocList a2 szs with
      | none => rw [hrest] at h; cases h
      | some q =>
        obtain ⟨rs2, a3⟩ := q
        rw [hrest] at h
        simp only [Option.some_bind, Option.some.injEq, Prod.mk.injEq] at h
        obtain ⟨rfl, rfl⟩ := h
        intro r hr
        rcases List.mem_cons.mp hr with hr | hr
        · subst hr
          obtain ⟨hb, hcap, _⟩ := alloc_fresh halloc
          exact ⟨(allocList_preserves szs hrest hb).1, hcap⟩
        · exact ih hrest r hr

/-- Auxiliary: the regions returned by an allocation sequence are pairwise
disjoint. -/
theorem allocList_pairwise (szs : List Nat) :
    ∀ {a : Arena} {rs : List Region} {a1 : Arena},
      Arena.allocList a szs = some (rs, a1) →
      List.Pairwise Region.disjoint rs := by
  induction szs with
  | nil =>
    intro a rs a1 h
    unfold Arena.allocList at h
    cases h
    exact List.Pairwise.nil
  | cons sz szs ih =>
    intro a rs a1 h
    unfold Arena.allocList at h
    cases halloc : Arena.alloc a sz with
    | none => rw [halloc] at h; cases h
    | some p =>
      obtain ⟨r0, a2⟩ := p
      rw [halloc] at h
      simp only [Option.bind_eq_bind, Option.some_bind] at h
      cases hrest : Arena.allocList a2 szs with
      | none => rw [hrest] at h; cases h
      | some q =>
        obtain ⟨rs2, a3⟩ := q
        rw [hrest] at h
        simp only [Option.some_bind, Option.some.injEq, Prod.mk.injEq] at h
        obtain ⟨rfl, rfl⟩ := h
        refine List.Pairwise.cons (fun r hr => ?_) (ih hrest)
        exact (allocList_preserves szs hrest (alloc_fresh halloc).1).2 r hr

/-- Auxiliary: an allocation sequence of in-range sizes never fails. -/
theorem allocList_succeeds :
    ∀ (szs : List Nat), (∀ s ∈ szs, alignSize s < CHUNK) →
      ∀ a : Arena, ∃ rs a1, Arena.allocList a szs = some (rs, a1)
  | [], _, a => ⟨[], a, rfl⟩
  | sz :: szs, h, a => by
    have hsz := h sz (List.mem_cons_self _ _)
    have halloc : ∃ p, Arena.alloc a sz = some p := by
      unfold Arena.alloc
      split_ifs with h1 h2
      · omega
      · exact ⟨_, rfl⟩
      · exact ⟨_, rfl⟩
    obtain ⟨⟨r0, a2⟩, hp⟩ := halloc
    obtain ⟨rs, a3, hrest⟩ :=
      allocList_succeeds szs (fun t ht => h t (List.mem_cons_of_mem _ ht)) a2
    refine ⟨r0 :: rs, a3, ?_⟩
    unfold Arena.allocList
    rw [hp]
    simp [hrest]

/-- Auxiliary: a successful allocation keeps the cursor inside the chunk
and grows the consumed capacity by at least the aligned size. -/
theorem alloc_fill {a : Arena} {sz : Nat} {r : Region} {a1 : Arena}
    (h : Arena.alloc a sz = some (r, a1)) (hidx : a.index ≤ CHUNK) :
    a1.index ≤ CHUNK ∧ a.fill + alignSize sz ≤ a1.fill := by
  unfold Arena.alloc at h
  split_ifs at h with h1 h2
  · cases h
    simp [Arena.fill, CHUNK] at *
    split_ifs <;> omega
  · cases h
    simp [Arena.fill, CHUNK] at *
    split_ifs <;> omega

/-- Auxiliary: across an allocation sequence the consumed capacity grows
by at least the sum of the aligned sizes. -/
theorem allocList_fill (szs : List Nat) :
    ∀ {a : Arena} {rs : List Region} {a1 : Arena},
      Arena.allocList a szs = some (rs, a1) → a.index ≤ CHUNK →
      a1.index ≤ CHUNK ∧ a.fill + (szs.map alignSize).sum ≤ a1.fill := by
  induction szs with
  | nil =>
    intro a rs a1 h hidx
    unfold Arena.allocList at h
    cases h
    simp [hidx]
  | cons sz szs ih =>
    intro a rs a1 h hidx
    unfold Arena.allocList at h
    cases halloc : Arena.alloc a sz with
    | none => rw [halloc] at h; cases h
    | some p =>
      obtain ⟨r0, a2⟩ := p
      rw [halloc] at h
      simp only [Option.bind_eq_bind, Option.some_bind] at h
      cases hrest : Arena.allocList a2 szs with
      | none => rw [hrest] at h; cases h
      | some q =>
        obtain ⟨rs2, a3⟩ := q
        rw [hrest] at h
        simp only [Option.some_bind, Option.some.injEq, Prod.mk.injEq] at h
        obtain ⟨rfl, rfl⟩ := h
        obtain ⟨hidx2, hgrow⟩ := alloc_fill halloc hidx
        obtain ⟨hidx3, hgrow2⟩ := ih hrest hidx2
        refine ⟨hidx3, ?_⟩
        simp only [List.map_cons, List.sum_cons]
        omega

/-- C7: Arena::alloc rejects (asserts on) any type whose aligned size is
not smaller than the chunk capacity; and every sequence of in-range
allocations succeeds, returns pairwise-disjoint regions that each fit
inside a chunk — no earlier allocation is overwritten by a later one —
and transparently appends a second chunk whenever the aligned sizes
together exceed one chunk. -/
theorem c7_arena_alloc (szs : List Nat) (sz : Nat) (a : Arena)
    (hszs : ∀ s ∈ szs, alignSize s < CHUNK) (hsz : CHUNK ≤ alignSize sz) :
    Arena.alloc a sz = none
  ∧ ∃ rs a1, Arena.allocList Arena.empty szs = some (rs, a1)
      ∧ List.Pairwise Region.disjoint rs
      ∧ (∀ r ∈ rs, r.off + r.size ≤ CHUNK)
      ∧ (CHUNK < (szs.map alignSize).sum → 2 ≤ a1.chunks) := by
  refine ⟨(alloc_none_iff a sz).mpr hsz, ?_⟩
  obtain ⟨rs, a1, hlist⟩ := allocList_succeeds szs hszs Arena.empty
  refine ⟨rs, a1, hlist, allocList_pairwise szs hlist,
    fun r hr => (allocList_each szs hlist r hr).2, fun hsum => ?_⟩
  obtain ⟨hidx, hgrow⟩ := allocList_fill szs hlist (by simp [Arena.empty, CHUNK])
  have hempty : Arena.empty.fill = 0 := rfl
  rw [hempty, Nat.zero_add] at hgrow
  unfold Arena.fill at hgrow
  by_cases hz : a1.chunks = 0
  · rw [if_pos hz] at hgrow
    omega
  · rw [if_neg hz] at hgrow
    simp only [CHUNK] at *
    omega

/-- Witness for c7_arena_alloc: two 9000-byte allocations (total 18000,
more than one chunk) from the empty arena, and one 9996-byte type whose
aligned size 10000 reaches the chunk capacity. -/
theorem c7_arena_alloc_witness :
    Arena.alloc Arena.empty 9996 = none
  ∧ ∃ rs a1, Arena.allocList Arena.empty [9000, 9000] = some (rs, a1)
      ∧ List.Pairwise Region.disjoint rs
      ∧ (∀ r ∈ rs, r.off + r.size ≤ CHUNK)
      ∧ (CHUNK < ([9000, 9000].map alignSize).sum → 2 ≤ a1.chunks) :=
  c7_arena_alloc [9000, 9000] 9996 Arena.empty (by decide) (by decide)

/-! ### C2: Module print order -/

/-- Auxiliary: appending list elements to an accumulator one by one — the
shape of the sequential stream writes — concatenates them after it. -/
theorem foldl_append_eq_join : ∀ (l : List String) (acc : String),
    l.foldl (fun a x => a ++ x) acc = acc ++ String.join l
  | [], acc => by simp [String.join]
  | x :: l, acc => by
    have h1 := foldl_append_eq_join l (acc ++ x)
    have hj : String.join (x :: l) = x ++ String.join l := by
      have h3 := foldl_append_eq_join l ("" ++ x)
      simp only [String.join, List.foldl]
      simpa using h3
    rw [List.foldl, h1, hj, String.append_assoc]

/-- Auxiliary: a write loop over a list of declarations renders the
concatenation of the individual renderings in list order. -/
theorem foldl_write_eq_join {α : Type} (g : α → String) (l : List α) :
    l.foldl (fun acc t => acc ++ g t) "" = String.join (l.map g) := by
  rw [← List.foldl_map]
  simpa using foldl_append_eq_join (l.map g) ""

/-- C2: printing a Module emits its declarations in exactly this order:
every FunctionType, then every Import in name-sorted order, then every
Export in declaration order, then the table, then every Function in
declaration order, each written as its own indented line inside the
(module ...) form; the iterated import sequence is sorted by name and is
a permutation of the stored imports. -/
theorem c2_module_print_order (m : Module) :
    Module.print m = (printFunctions m.functions 1).map (fun fns =>
        "(module\n"
        ++ String.join (m.functionTypes.map (fun t => doIndent 1 ++ t.print 1 ++ "\n"))
        ++ String.join ((sortImports m.imports).map
             (fun p => doIndent 1 ++ p.2.print 1 ++ "\n"))
        ++ String.join (m.exports.map (fun e => doIndent 1 ++ e.print ++ "\n"))
        ++ doIndent 1 ++ m.table.print ++ "\n" ++ fns ++ ")\n")
  ∧ List.Sorted (fun a b => a.1 ≤ b.1) (sortImports m.imports)
  ∧ List.Perm (sortImports m.imports) m.imports := by
  refine ⟨?_, ?_, List.perm_insertionSort _ _⟩
  · unfold Module.print
    cases hf : printFunctions m.functions 1 with
    | none => rfl
    | some fns =>
      simp only [Option.bind_eq_bind, Option.some_bind, Option.map_some',
        foldl_write_eq_join]
      rfl
  · haveI : IsTotal (Name × Import) (fun a b => a.1 ≤ b.1) :=
      ⟨fun a b => le_total a.1 b.1⟩
    haveI : IsTrans (Name × Import) (fun a b => a.1 ≤ b.1) :=
      ⟨fun a b c hab hbc => le_trans hab hbc⟩
    exact List.sorted_insertionSort _ _

end Wasm
